import Mathlib

/-!
# The `blockchain_integration_plugin` registration shim

A shallow embedding of the Windows side of the plugin:

* `windows/blockchain_integration_plugin_c_api.cpp`: the C entry point
  `BlockchainIntegrationPluginCApiRegisterWithRegistrar`;
* `windows/blockchain_integration_plugin.h`: the class
  `blockchain_integration_plugin::BlockchainIntegrationPlugin`.

The entry point calls two functions it does not define: the registrar
manager's lookup (Flutter's C++ wrapper library) and the static method
`BlockchainIntegrationPlugin::RegisterWithRegistrar`.  Both are taken as
parameters (`Callees`), as state transformers over an arbitrary host
state `σ` that may fail.  Failure (`none`) stands for every way a C++
call does not return normally; the state reached is kept, so that what
happened before the failure stays observable.
-/

/-- The C type `FlutterDesktopPluginRegistrarRef`: a pointer to a registrar
the host owns, modelled by its address; `0` is the null pointer. -/
abbrev FlutterDesktopPluginRegistrarRef := Nat

/-- The two functions called by the body of
`BlockchainIntegrationPluginCApiRegisterWithRegistrar`.
`Registrar` stands for `flutter::PluginRegistrarWindows *`. -/
structure Callees (Registrar σ : Type) where
  /-- The expression
  `flutter::PluginRegistrarManager::GetInstance()->GetRegistrar<flutter::PluginRegistrarWindows>(ref)`. -/
  GetRegistrar : FlutterDesktopPluginRegistrarRef → σ → Option Registrar × σ
  /-- The static method
  `blockchain_integration_plugin::BlockchainIntegrationPlugin::RegisterWithRegistrar`. -/
  RegisterWithRegistrar : Registrar → σ → Option Unit × σ

/-- The function `BlockchainIntegrationPluginCApiRegisterWithRegistrar` of
`blockchain_integration_plugin_c_api.cpp`: the argument expression (the
lookup) is evaluated first, its value is passed to `RegisterWithRegistrar`,
and nothing else is done.  The C++ return type is `void`. -/
def BlockchainIntegrationPluginCApiRegisterWithRegistrar {Registrar σ : Type}
    (env : Callees Registrar σ) (registrar : FlutterDesktopPluginRegistrarRef)
    (s : σ) : Option Unit × σ :=
  match env.GetRegistrar registrar s with
  | (some r, s1) => env.RegisterWithRegistrar r s1
  | (none, s1) => (none, s1)

/-- A call the entry point can make, as recorded in a call log. -/
inductive HostOp (Registrar : Type) where
  | GetRegistrar (ref : FlutterDesktopPluginRegistrarRef)
  | RegisterWithRegistrar (r : Registrar)
  deriving DecidableEq, Repr

/-- The arguments of the `RegisterWithRegistrar` calls of a log, in order. -/
def registerCalls {Registrar : Type} : List (HostOp Registrar) → List Registrar
  | [] => []
  | HostOp.RegisterWithRegistrar r :: ops => r :: registerCalls ops
  | HostOp.GetRegistrar _ :: ops => registerCalls ops

/-- The same callees, each call appended to a log kept next to the state. -/
def Callees.traced {Registrar σ : Type} (env : Callees Registrar σ) :
    Callees Registrar (σ × List (HostOp Registrar)) where
  GetRegistrar ref st :=
    ((env.GetRegistrar ref st.1).1,
      ((env.GetRegistrar ref st.1).2, st.2 ++ [HostOp.GetRegistrar ref]))
  RegisterWithRegistrar r st :=
    ((env.RegisterWithRegistrar r st.1).1,
      ((env.RegisterWithRegistrar r st.1).2, st.2 ++ [HostOp.RegisterWithRegistrar r]))

/-- The host calling the entry point `n` times in sequence with one handle.
A call that does not return ends the sequence. -/
def callTimes {Registrar σ : Type} (env : Callees Registrar σ)
    (registrar : FlutterDesktopPluginRegistrarRef) : Nat → σ → Option Unit × σ
  | 0, s => (some (), s)
  | n + 1, s =>
    match BlockchainIntegrationPluginCApiRegisterWithRegistrar env registrar s with
    | (some _, s1) => callTimes env registrar n s1
    | (none, s1) => (none, s1)

/-- A concrete host for examples: handles `1`, `2`, `3` are known to the
manager, which wraps handle `h` as registrar `h + 100`; every other handle,
the null handle included, makes the lookup fail.  Registration fails on
registrar `103` and otherwise counts the registrations in the state. -/
def sampleHost : Callees Nat Nat where
  GetRegistrar ref s := if 1 ≤ ref ∧ ref ≤ 3 then (some (ref + 100), s) else (none, s)
  RegisterWithRegistrar r s := if r = 103 then (none, s) else (some (), s + 1)

/-- The call log of `n` completed calls with handle `ref`, the lookups
having returned the registrars `rs` in this order. -/
def completedLog {Registrar : Type} (ref : FlutterDesktopPluginRegistrarRef) :
    List Registrar → List (HostOp Registrar)
  | [] => []
  | r :: rs =>
    HostOp.GetRegistrar ref :: HostOp.RegisterWithRegistrar r :: completedLog ref rs

namespace blockchain_integration_plugin

/-- The class `BlockchainIntegrationPlugin` of
`windows/blockchain_integration_plugin.h`.  The class body declares a static
method, a constructor, a virtual destructor, the deleted copy operations and
`HandleMethodCall`; it declares no data member, so the structure has no
field.  (The base class `flutter::Plugin` belongs to the host library.) -/
structure BlockchainIntegrationPlugin where
  deriving DecidableEq, Repr

/-- The type `flutter::MethodCall<T>`: a method name and its encoded
arguments.  `Value` stands for `flutter::EncodableValue`. -/
structure MethodCall (Value : Type) where
  method_name : String
  arguments : Value

/-- The three completions of a `flutter::MethodResult<T>`. -/
inductive Completion (Value : Type) where
  | Success (result : Value)
  | Error (error_code : String) (error_message : String) (error_details : Value)
  | NotImplemented
  deriving DecidableEq, Repr

/-- A result callback `flutter::MethodResult<T>`, modelled by the completions
invoked on it so far, oldest first. -/
structure MethodResult (Value : Type) where
  completions : List (Completion Value)

/-- The completion `MethodResult::Success(result)`. -/
def MethodResult.Success {Value : Type} (self : MethodResult Value) (result : Value) :
    MethodResult Value :=
  { completions := self.completions ++ [Completion.Success result] }

/-- The completion `MethodResult::Error(code, message, details)`. -/
def MethodResult.Error {Value : Type} (self : MethodResult Value)
    (error_code error_message : String) (error_details : Value) : MethodResult Value :=
  { completions :=
      self.completions ++ [Completion.Error error_code error_message error_details] }

/-- The completion `MethodResult::NotImplemented()`. -/
def MethodResult.NotImplemented {Value : Type} (self : MethodResult Value) :
    MethodResult Value :=
  { completions := self.completions ++ [Completion.NotImplemented] }

/-- What an action of the plugin ends with: a value, or an error given by
code, message and details. -/
inductive ActionOutcome (Value : Type) where
  | value (result : Value)
  | failure (error_code : String) (error_message : String) (error_details : Value)

/-- The methods the plugin recognises, each with its action on the decoded
arguments. -/
abbrev ActionTable (Value : Type) := List (String × (Value → ActionOutcome Value))

/-- Modelled from the spec: the body of
`BlockchainIntegrationPlugin::HandleMethodCall`, which the header only
declares (`blockchain_integration_plugin.cpp` is not among the sources).
Spec 4.1: "decode the method name, dispatch to the appropriate action, and
invoke exactly one of the result callback's success/error/not-implemented
completions exactly once"; spec 7: "an unrecognized method name should yield
a not implemented response".  The spec names no method, so the recognised
methods are the parameter `actions`. -/
def BlockchainIntegrationPlugin.HandleMethodCall {Value : Type}
    (_self : BlockchainIntegrationPlugin) (actions : ActionTable Value)
    (method_call : MethodCall Value) (result : MethodResult Value) : MethodResult Value :=
  match actions.lookup method_call.method_name with
  | some action =>
    match action method_call.arguments with
    | ActionOutcome.value v => result.Success v
    | ActionOutcome.failure code message details => result.Error code message details
  | none => result.NotImplemented

/-- What registrations leave behind in the host: the plugin instances handed
to registrars, and the associations of channel names with instances, both
oldest first. -/
structure Registry (Registrar : Type) where
  plugins : List (Registrar × BlockchainIntegrationPlugin)
  channels : List (String × BlockchainIntegrationPlugin)

/-- Modelled from the spec: the body of the static method
`BlockchainIntegrationPlugin::RegisterWithRegistrar`, which the header only
declares (`blockchain_integration_plugin.cpp` is not among the sources).
Spec 4.1: "constructs one plugin instance and associates it with a
statically named method-invocation channel recognized by the host".  The
spec does not give the name (spec 6: "not specified beyond its existence"),
so it is the parameter `channelName`, fixed before any handle is seen. -/
def BlockchainIntegrationPlugin.RegisterWithRegistrar {Registrar : Type}
    (channelName : String) (registrar : Registrar) (reg : Registry Registrar) :
    Option Unit × Registry Registrar :=
  let plugin : BlockchainIntegrationPlugin := BlockchainIntegrationPlugin.mk
  (some (),
    { plugins := reg.plugins ++ [(registrar, plugin)],
      channels := reg.channels ++ [(channelName, plugin)] })

end blockchain_integration_plugin

open blockchain_integration_plugin

/-- The entry point's callees when the plugin's own `RegisterWithRegistrar`
is the one modelled above and the manager's lookup is `lookup`. -/
def pluginCallees {Registrar : Type} (channelName : String)
    (lookup : FlutterDesktopPluginRegistrarRef → Registry Registrar →
      Option Registrar × Registry Registrar) :
    Callees Registrar (Registry Registrar) where
  GetRegistrar := lookup
  RegisterWithRegistrar := BlockchainIntegrationPlugin.RegisterWithRegistrar channelName

/-- A concrete action table for examples: `getPlatformVersion` answers with
a constant, `fail` ends in an error. -/
def sampleActions : ActionTable Nat :=
  [("getPlatformVersion", fun _ => ActionOutcome.value 10),
   ("fail", fun n => ActionOutcome.failure "E" "failed" n)]

/-! ## Helper lemmas -/

theorem registerCalls_append {Registrar : Type} (xs ys : List (HostOp Registrar)) :
    registerCalls (xs ++ ys) = registerCalls xs ++ registerCalls ys := by
  induction xs with
  | nil => rfl
  | cons x xs ih =>
    cases x with
    | GetRegistrar ref => simpa [registerCalls] using ih
    | RegisterWithRegistrar r => simpa [registerCalls] using ih

/-- Logging does not change what the entry point does to the host state. -/
theorem traced_run_erase {Registrar σ : Type} (env : Callees Registrar σ)
    (ref : FlutterDesktopPluginRegistrarRef) (s : σ) (log : List (HostOp Registrar)) :
    (BlockchainIntegrationPluginCApiRegisterWithRegistrar env.traced ref (s, log)).1
        = (BlockchainIntegrationPluginCApiRegisterWithRegistrar env ref s).1
      ∧ (BlockchainIntegrationPluginCApiRegisterWithRegistrar env.traced ref (s, log)).2.1
        = (BlockchainIntegrationPluginCApiRegisterWithRegistrar env ref s).2 := by
  unfold BlockchainIntegrationPluginCApiRegisterWithRegistrar
  rcases hget : env.GetRegistrar ref s with ⟨res, s1⟩
  cases res <;> simp [Callees.traced, hget]

/-- The log of one call: the lookup, then one registration per registrar the
lookup returned. -/
theorem traced_run_log {Registrar σ : Type} (env : Callees Registrar σ)
    (ref : FlutterDesktopPluginRegistrarRef) (s : σ) (log : List (HostOp Registrar)) :
    (BlockchainIntegrationPluginCApiRegisterWithRegistrar env.traced ref (s, log)).2.2
      = log ++ HostOp.GetRegistrar ref ::
          (match (env.GetRegistrar ref s).1 with
           | some r => [HostOp.RegisterWithRegistrar r]
           | none => []) := by
  unfold BlockchainIntegrationPluginCApiRegisterWithRegistrar
  rcases hget : env.GetRegistrar ref s with ⟨res, s1⟩
  cases res <;> simp [Callees.traced, hget]

/-! ## Claims about the entry point -/

/-- C1: whenever the registrar manager's lookup returns a registrar `r` for
the handle, the entry point makes exactly the calls "lookup of the handle"
and then one `RegisterWithRegistrar r`, with the very `r` the lookup
returned; no other call is logged, the outcome and the state are those of
that one `RegisterWithRegistrar` call, and the value returned is of type
`Unit`. -/
theorem capi_forwards_registrar_once {Registrar σ : Type} (env : Callees Registrar σ)
    (ref : FlutterDesktopPluginRegistrarRef) (s s1 : σ) (r : Registrar)
    (log : List (HostOp Registrar))
    (hget : env.GetRegistrar ref s = (some r, s1)) :
    BlockchainIntegrationPluginCApiRegisterWithRegistrar env.traced ref (s, log)
        = ((env.RegisterWithRegistrar r s1).1,
            ((env.RegisterWithRegistrar r s1).2,
              log ++ [HostOp.GetRegistrar ref, HostOp.RegisterWithRegistrar r]))
      ∧ registerCalls
          (BlockchainIntegrationPluginCApiRegisterWithRegistrar env.traced ref (s, log)).2.2
        = registerCalls log ++ [r] := by
  have hrun : BlockchainIntegrationPluginCApiRegisterWithRegistrar env.traced ref (s, log)
      = ((env.RegisterWithRegistrar r s1).1,
          ((env.RegisterWithRegistrar r s1).2,
            log ++ [HostOp.GetRegistrar ref, HostOp.RegisterWithRegistrar r])) := by
    simp [BlockchainIntegrationPluginCApiRegisterWithRegistrar, Callees.traced, hget]
  refine ⟨hrun, ?_⟩
  rw [hrun, registerCalls_append]
  rfl

/-- Witness of C1 on `sampleHost`, handle `2`. -/
theorem capi_forwards_registrar_once_witness :
    sampleHost.GetRegistrar 2 0 = (some 102, 0)
      ∧ BlockchainIntegrationPluginCApiRegisterWithRegistrar sampleHost.traced 2 (0, [])
        = (some (), (1, [HostOp.GetRegistrar 2, HostOp.RegisterWithRegistrar 102])) :=
  ⟨by decide, (capi_forwards_registrar_once sampleHost 2 0 0 102 [] (by decide)).1⟩

/-- C3: for a valid handle, that is when the lookup returns a registrar and
`RegisterWithRegistrar` returns on it, the entry point returns normally, in
the state `RegisterWithRegistrar` left. -/
theorem capi_returns_on_valid_handle {Registrar σ : Type} (env : Callees Registrar σ)
    (ref : FlutterDesktopPluginRegistrarRef) (s s1 s2 : σ) (r : Registrar)
    (hget : env.GetRegistrar ref s = (some r, s1))
    (hreg : env.RegisterWithRegistrar r s1 = (some (), s2)) :
    BlockchainIntegrationPluginCApiRegisterWithRegistrar env ref s = (some (), s2) := by
  simp [BlockchainIntegrationPluginCApiRegisterWithRegistrar, hget, hreg]

/-- Witness of C3 on `sampleHost`, handle `1`. -/
theorem capi_returns_on_valid_handle_witness :
    sampleHost.GetRegistrar 1 7 = (some 101, 7)
      ∧ sampleHost.RegisterWithRegistrar 101 7 = (some (), 8)
      ∧ BlockchainIntegrationPluginCApiRegisterWithRegistrar sampleHost 1 7 = (some (), 8) :=
  ⟨by decide, by decide,
    capi_returns_on_valid_handle sampleHost 1 7 7 8 101 (by decide) (by decide)⟩

/-- C8: the entry point has no failure of its own.  For every handle, null
or unknown ones included, the first call made is the manager's lookup on
that very handle, and the entry point fails exactly when the lookup fails
or `RegisterWithRegistrar` fails on the registrar the lookup returned. -/
theorem capi_fails_iff_callee_fails {Registrar σ : Type} (env : Callees Registrar σ)
    (ref : FlutterDesktopPluginRegistrarRef) (s : σ) (log : List (HostOp Registrar)) :
    ((BlockchainIntegrationPluginCApiRegisterWithRegistrar env ref s).1 = none
        ↔ ((env.GetRegistrar ref s).1 = none
            ∨ ∃ r, (env.GetRegistrar ref s).1 = some r
                ∧ (env.RegisterWithRegistrar r (env.GetRegistrar ref s).2).1 = none))
      ∧ ∃ rest,
          (BlockchainIntegrationPluginCApiRegisterWithRegistrar env.traced ref (s, log)).2.2
            = log ++ HostOp.GetRegistrar ref :: rest := by
  refine ⟨?_, ⟨_, traced_run_log env ref s log⟩⟩
  unfold BlockchainIntegrationPluginCApiRegisterWithRegistrar
  rcases hget : env.GetRegistrar ref s with ⟨res, s1⟩
  cases res <;> simp

theorem registerCalls_completedLog {Registrar : Type}
    (ref : FlutterDesktopPluginRegistrarRef) (rs : List Registrar) :
    registerCalls (completedLog ref rs) = rs := by
  induction rs with
  | nil => rfl
  | cons r rs ih => simp [completedLog, registerCalls, ih]

/-- C9: the entry point keeps no record of earlier registrations.  Let the
handle be valid in every host state: the manager's lookup returns a
registrar for it and `RegisterWithRegistrar` returns on that registrar.
Then for every `n`, `n` calls in sequence with that handle all return (none
is rejected), and the call log grows by exactly `n` rounds "lookup of the
handle, then `RegisterWithRegistrar`": `RegisterWithRegistrar` is invoked
`n` times, once per call, on the registrar the lookup of that call returned
(none is skipped). -/
theorem capi_repeated_calls_register_each_time {Registrar σ : Type}
    (env : Callees Registrar σ) (ref : FlutterDesktopPluginRegistrarRef) (n : Nat)
    (s : σ) (log : List (HostOp Registrar))
    (hvalid : ∀ t : σ, ∃ r, (env.GetRegistrar ref t).1 = some r
      ∧ (env.RegisterWithRegistrar r (env.GetRegistrar ref t).2).1 = some ()) :
    (callTimes env.traced ref n (s, log)).1 = some ()
      ∧ ∃ rs : List Registrar, rs.length = n
          ∧ (callTimes env.traced ref n (s, log)).2.2 = log ++ completedLog ref rs
          ∧ registerCalls (callTimes env.traced ref n (s, log)).2.2
              = registerCalls log ++ rs
          ∧ (registerCalls (callTimes env.traced ref n (s, log)).2.2).length
              = (registerCalls log).length + n := by
  suffices h : (callTimes env.traced ref n (s, log)).1 = some ()
      ∧ ∃ rs : List Registrar, rs.length = n
          ∧ (callTimes env.traced ref n (s, log)).2.2 = log ++ completedLog ref rs by
    obtain ⟨hret, rs, hlen, hlog⟩ := h
    refine ⟨hret, rs, hlen, hlog, ?_, ?_⟩
    · rw [hlog, registerCalls_append, registerCalls_completedLog]
    · rw [hlog, registerCalls_append, registerCalls_completedLog, List.length_append, hlen]
  induction n generalizing s log with
  | zero => exact ⟨rfl, [], rfl, by simp [callTimes, completedLog]⟩
  | succ n ih =>
    obtain ⟨r, hr, hreg⟩ := hvalid s
    rcases hget : env.GetRegistrar ref s with ⟨res, s1⟩
    rw [hget] at hr hreg
    simp only at hr hreg
    subst hr
    rcases hcall : env.RegisterWithRegistrar r s1 with ⟨out, s2⟩
    rw [hcall] at hreg
    simp only at hreg
    subst hreg
    have hrun : BlockchainIntegrationPluginCApiRegisterWithRegistrar env.traced ref (s, log)
        = (some (), (s2, log ++ [HostOp.GetRegistrar ref, HostOp.RegisterWithRegistrar r])) := by
      simp [BlockchainIntegrationPluginCApiRegisterWithRegistrar, Callees.traced, hget, hcall]
    obtain ⟨hret, rs, hlen, hrest⟩ :=
      ih s2 (log ++ [HostOp.GetRegistrar ref, HostOp.RegisterWithRegistrar r])
    have hstep : callTimes env.traced ref (n + 1) (s, log)
        = callTimes env.traced ref n
            (s2, log ++ [HostOp.GetRegistrar ref, HostOp.RegisterWithRegistrar r]) := by
      rw [callTimes, hrun]
    rw [hstep]
    refine ⟨hret, r :: rs, by simp [hlen], ?_⟩
    rw [hrest]
    simp [completedLog]

/-- Witness of C9 on `sampleHost`: handle `2` is valid in every state, and
three calls with it return and register three times. -/
theorem capi_repeated_calls_register_each_time_witness :
    (∀ t : Nat, ∃ r, (sampleHost.GetRegistrar 2 t).1 = some r
        ∧ (sampleHost.RegisterWithRegistrar r (sampleHost.GetRegistrar 2 t).2).1 = some ())
      ∧ (callTimes sampleHost.traced 2 3 (0, [])).1 = some ()
      ∧ ∃ rs : List Nat, rs.length = 3
          ∧ (callTimes sampleHost.traced 2 3 (0, [])).2.2 = [] ++ completedLog 2 rs
          ∧ registerCalls (callTimes sampleHost.traced 2 3 (0, [])).2.2 = registerCalls [] ++ rs
          ∧ (registerCalls (callTimes sampleHost.traced 2 3 (0, [])).2.2).length
              = (registerCalls ([] : List (HostOp Nat))).length + 3 :=
  ⟨fun _ => ⟨102, by simp [sampleHost], by simp [sampleHost]⟩,
    capi_repeated_calls_register_each_time sampleHost 2 3 0 []
      (fun _ => ⟨102, by simp [sampleHost], by simp [sampleHost]⟩)⟩

/-! ## Claims about the plugin class -/

/-- C7: the plugin type has no field of its own: any two instances are
equal, every operation that reads an instance (the destructor,
`HandleMethodCall`) gives the same result on any two instances, every
operation that produces an instance from one leaves it as it was, and every
way of constructing one yields the same value. -/
theorem plugin_has_no_state :
    (∀ p q : BlockchainIntegrationPlugin, p = q)
      ∧ (∀ (α : Type) (f : BlockchainIntegrationPlugin → α)
          (p q : BlockchainIntegrationPlugin), f p = f q)
      ∧ (∀ (g : BlockchainIntegrationPlugin → BlockchainIntegrationPlugin)
          (p : BlockchainIntegrationPlugin), g p = p)
      ∧ (∀ (α : Type) (make : α → BlockchainIntegrationPlugin) (a b : α),
          make a = make b) := by
  have heq : ∀ p q : BlockchainIntegrationPlugin, p = q := fun p q => by
    cases p; cases q; rfl
  exact ⟨heq, fun _ f p q => congrArg f (heq p q), fun g p => heq (g p) p,
    fun _ make a b => heq (make a) (make b)⟩

/-- C2: for every valid handle, that is when the manager's lookup returns a
registrar `r`, one call of the entry point returns normally, having
constructed exactly one plugin instance, handed to `r`, and having
associated that instance with exactly one channel, whose name is
`channelName` whatever the handle, the registrar and the earlier
registrations are. -/
theorem register_binds_one_instance_to_static_channel {Registrar : Type}
    (channelName : String)
    (lookup : FlutterDesktopPluginRegistrarRef → Registry Registrar →
      Option Registrar × Registry Registrar)
    (ref : FlutterDesktopPluginRegistrarRef) (reg reg1 : Registry Registrar) (r : Registrar)
    (hvalid : lookup ref reg = (some r, reg1)) :
    ∃ plugin : BlockchainIntegrationPlugin,
      BlockchainIntegrationPluginCApiRegisterWithRegistrar
          (pluginCallees channelName lookup) ref reg
        = (some (),
            { plugins := reg1.plugins ++ [(r, plugin)],
              channels := reg1.channels ++ [(channelName, plugin)] }) := by
  refine ⟨BlockchainIntegrationPlugin.mk, ?_⟩
  simp [BlockchainIntegrationPluginCApiRegisterWithRegistrar, pluginCallees, hvalid,
    BlockchainIntegrationPlugin.RegisterWithRegistrar]

/-- Witness of C2: a lookup that knows every non-null handle, the second
registration on a registry that already holds one. -/
theorem register_binds_one_instance_to_static_channel_witness :
    ∃ plugin : BlockchainIntegrationPlugin,
      BlockchainIntegrationPluginCApiRegisterWithRegistrar
          (pluginCallees "ch" (fun ref reg => (if ref = 0 then none else some ref, reg)))
          5 { plugins := [(4, BlockchainIntegrationPlugin.mk)],
              channels := [("ch", BlockchainIntegrationPlugin.mk)] }
        = (some (),
            { plugins := [(4, BlockchainIntegrationPlugin.mk)] ++ [(5, plugin)],
              channels := [("ch", BlockchainIntegrationPlugin.mk)] ++ [("ch", plugin)] }) :=
  register_binds_one_instance_to_static_channel "ch"
    (fun ref reg => (if ref = 0 then none else some ref, reg)) 5
    { plugins := [(4, BlockchainIntegrationPlugin.mk)],
      channels := [("ch", BlockchainIntegrationPlugin.mk)] }
    { plugins := [(4, BlockchainIntegrationPlugin.mk)],
      channels := [("ch", BlockchainIntegrationPlugin.mk)] } 5 (by simp)

/-- C4: when the method name of a call is none of the names the plugin
recognises, `HandleMethodCall` completes the callback with
`NotImplemented`: that completion is the only one added, so neither
`Success` nor `Error` is invoked and the callback is not left without
answer. -/
theorem handle_unknown_method_not_implemented {Value : Type}
    (self : BlockchainIntegrationPlugin) (actions : ActionTable Value)
    (method_call : MethodCall Value) (result : MethodResult Value)
    (hunknown : ∀ entry ∈ actions, entry.1 ≠ method_call.method_name) :
    (self.HandleMethodCall actions method_call result).completions
      = result.completions ++ [Completion.NotImplemented] := by
  have hlookup : actions.lookup method_call.method_name = none := by
    induction actions with
    | nil => rfl
    | cons entry rest ih =>
      obtain ⟨name, action⟩ := entry
      have hne : name ≠ method_call.method_name := hunknown (name, action) (by simp)
      have hbeq : (method_call.method_name == name) = false := by
        simpa using fun h => hne h.symm
      rw [List.lookup_cons, hbeq]
      exact ih (fun e he => hunknown e (List.mem_cons_of_mem _ he))
  simp [BlockchainIntegrationPlugin.HandleMethodCall, hlookup, MethodResult.NotImplemented]

/-- Witness of C4: the method `transfer` is not in `sampleActions`. -/
theorem handle_unknown_method_not_implemented_witness :
    (∀ entry ∈ sampleActions, entry.1 ≠ "transfer")
      ∧ (BlockchainIntegrationPlugin.mk.HandleMethodCall sampleActions
            { method_name := "transfer", arguments := 3 } { completions := [] }).completions
          = [] ++ [Completion.NotImplemented] :=
  ⟨by simp [sampleActions],
    handle_unknown_method_not_implemented BlockchainIntegrationPlugin.mk sampleActions
      { method_name := "transfer", arguments := 3 } { completions := [] }
      (by simp [sampleActions])⟩

/-- C5: for every method call and every result callback, `HandleMethodCall`
invokes exactly one completion on the callback, exactly once: the
completions of the callback grow by one single entry, never by none and
never by two. -/
theorem handle_completes_exactly_once {Value : Type}
    (self : BlockchainIntegrationPlugin) (actions : ActionTable Value)
    (method_call : MethodCall Value) (result : MethodResult Value) :
    (∃! c : Completion Value,
        (self.HandleMethodCall actions method_call result).completions
          = result.completions ++ [c])
      ∧ (self.HandleMethodCall actions method_call result).completions.length
          = result.completions.length + 1 := by
  have hex : ∃ c : Completion Value,
      (self.HandleMethodCall actions method_call result).completions
        = result.completions ++ [c] := by
    unfold BlockchainIntegrationPlugin.HandleMethodCall
    cases actions.lookup method_call.method_name with
    | none => exact ⟨Completion.NotImplemented, rfl⟩
    | some action =>
      simp only
      split
      · exact ⟨Completion.Success _, rfl⟩
      · exact ⟨Completion.Error _ _ _, rfl⟩
  obtain ⟨c, hc⟩ := hex
  refine ⟨⟨c, hc, fun d hd => ?_⟩, by rw [hc]; simp⟩
  have := hc.symm.trans hd
  simpa using this.symm
